import Mathlib

/-!
Verification of the weather-dashboard repository (src/pipeline.py and
src/dashboard.py) against its specification.

The embedding models:
* `pipeline.py`: the per-city extraction loop (`all_weather_data`), the
  transform loop building `transformed_data`, and the LOAD section appending
  to the CSV file and the SQLite table (`run_pipeline`).  The network, the
  wall clock and the filesystem are external, so they enter as explicit
  oracle parameters (`fetch : Nat → Option Payload`, `clock : Nat → Nat`,
  `csvOk dbOk : Bool`).
* `dashboard.py`: `WeatherDashboard.load_data` (SQLite read with a bare
  `except:` returning an empty frame), `get_latest_data` (sort by
  `load_timestamp_utc`, groupby `city` + last, `pd.Categorical` reorder) and
  `display_header`.

Timestamps are modeled as `Nat` (seconds; both `datetime` values and the
second-resolution `'%Y-%m-%d %H:%M:%S'` strings are totally ordered by time,
which is all the code uses).  Floating-point columns are carried as `Rat`;
the code never computes with them, it only moves them between rows.
-/

/-- The non-key columns of a weather reading, carried unchanged through every
operation modeled here.  `τ` is the timestamp carrier: `Nat` once parsed,
`String` for rows as stored in SQLite before `pd.to_datetime`. -/
structure RowData (τ : Type) where
  country : String
  temperature_celsius : Rat
  feels_like_celsius : Rat
  humidity_percent : Nat
  weather_main : String
  weather_description : String
  timestamp_utc : τ
  wind_speed_mps : Rat
  latitude : Rat
  longitude : Rat
  load_timestamp_utc : τ
deriving DecidableEq

/-- One row of the store (CSV file / `weather_log` table), with parsed
timestamps: the `city` column plus the rest. -/
structure WeatherRow where
  city : String
  data : RowData Nat
deriving DecidableEq

/-- A row of `get_latest_data`'s result.  After
`pd.Categorical(latest_data['city'], categories=self.cities_order)` the city
column holds either a roster city or NaN (`none`): city values absent from
`cities_order` are mapped to NaN by pandas. -/
structure DisplayRow where
  city : Option String
  data : RowData Nat
deriving DecidableEq

/-- dashboard.py lines 84-85: `self.cities_order`. -/
def cities_order : List String :=
  ["Mumbai", "Delhi", "Bengaluru", "Chennai", "Kolkata",
   "Hyderabad", "Jaipur", "Pune", "Ghaziabad"]

/-- Row comparison used by `self.df.sort_values('load_timestamp_utc')`. -/
def byLoad : WeatherRow → WeatherRow → Prop :=
  fun a b => a.data.load_timestamp_utc ≤ b.data.load_timestamp_utc

instance : DecidableRel byLoad := fun a b => Nat.decLe _ _

instance : IsTotal WeatherRow byLoad := ⟨fun a b => Nat.le_total _ _⟩

instance : IsTrans WeatherRow byLoad := ⟨fun _ _ _ => Nat.le_trans⟩

/-- The categorical code `pd.Categorical(..., categories=cities_order,
ordered=True)` assigns to a city cell: roster cities get their roster
position, NaN (a non-roster city) sorts after every category
(`sort_values` places NaN last). -/
def catCode : Option String → Nat
  | some s => cities_order.indexOf s
  | none => cities_order.length

/-- Row comparison used by `latest_data.sort_values('city')` on the
categorical city column. -/
def byCity : DisplayRow → DisplayRow → Prop :=
  fun a b => catCode a.city ≤ catCode b.city

instance : DecidableRel byCity := fun a b => Nat.decLe _ _

instance : IsTotal DisplayRow byCity := ⟨fun a b => Nat.le_total _ _⟩

instance : IsTrans DisplayRow byCity := ⟨fun _ _ _ => Nat.le_trans⟩

/-- The group keys of `.groupby('city')`: the distinct `city` values of the
frame, in ascending (alphabetical) order — pandas sorts group keys. -/
def cityKeys (df : List WeatherRow) : List String :=
  List.insertionSort (· ≤ ·) (df.map (fun r => r.city)).dedup

/-- The distinct cities of the store in the order `groupby` yields them
(after the `sort_values('load_timestamp_utc')` pass, which does not change
the set of cities). -/
def citiesPresent (df : List WeatherRow) : List String :=
  cityKeys (List.insertionSort byLoad df)

/-- `.groupby('city').last()` for one group: the last row of the
load-timestamp-sorted frame whose city is `c`, i.e. a row carrying the
maximal `load_timestamp_utc` of that city. -/
def pickLatest (df : List WeatherRow) (c : String) : Option WeatherRow :=
  ((List.insertionSort byLoad df).filter (fun r => r.city == c)).getLast?

/-- The categorical conversion of one grouped row: its city is kept when it
is a roster city and becomes NaN otherwise; every other column is carried
unchanged. -/
def displayRow (c : String) (r : WeatherRow) : DisplayRow :=
  ⟨if c ∈ cities_order then some c else none, r.data⟩

/-- The frame after `sort_values('load_timestamp_utc').groupby('city')
.last().reset_index()` and the `pd.Categorical` conversion: one row per
distinct city, keyed in ascending city order. -/
def groupedData (df : List WeatherRow) : List DisplayRow :=
  (citiesPresent df).filterMap (fun c => (pickLatest df c).map (displayRow c))

/-- dashboard.py lines 98-115, `WeatherDashboard.get_latest_data`: empty
frame in, empty frame out; otherwise sort by `load_timestamp_utc`, reduce
each city group to its last row, convert `city` to an ordered categorical
over `cities_order`, and sort by it (NaN last, in their prior relative
order — the non-NaN categorical codes are pairwise distinct here, so a
stable sort realizes exactly the pandas result). -/
def get_latest_data (df : List WeatherRow) : List DisplayRow :=
  if df.isEmpty then []
  else List.insertionSort byCity (groupedData df)

/-- Outcome of dashboard.py lines 121-128, `display_header`: whether the
"No weather data available" warning was rendered, and the returned Bool
(`run` stops when it is false). -/
structure HeaderResult where
  warnedNoData : Bool
  proceed : Bool
deriving DecidableEq

/-- dashboard.py lines 121-128: on an empty frame, warn and return False;
otherwise return True. -/
def display_header (df : List WeatherRow) : HeaderResult :=
  if df.isEmpty then ⟨true, false⟩ else ⟨false, true⟩

/-- A `weather_log` row as `pd.read_sql_query` returns it: both timestamp
columns are TEXT and still need `pd.to_datetime`. -/
structure StoredRow where
  city : String
  data : RowData String
deriving DecidableEq

/-- Why the `try` block of `load_data` can raise before returning: the
database file or the `weather_log` table may be missing, or something else
may go wrong.  The bare `except:` swallows all of them alike. -/
inductive LoadFailure
  | missingDatabase
  | missingTable
  | other
deriving DecidableEq

/-- `pd.to_datetime` on one row's two timestamp columns: both strings must
parse, the remaining columns are copied. -/
def parse_row (to_datetime : String → Option Nat) (r : StoredRow) : Option WeatherRow :=
  (to_datetime r.data.timestamp_utc).bind fun t =>
  (to_datetime r.data.load_timestamp_utc).bind fun lt =>
  some ⟨r.city,
    { country := r.data.country
      temperature_celsius := r.data.temperature_celsius
      feels_like_celsius := r.data.feels_like_celsius
      humidity_percent := r.data.humidity_percent
      weather_main := r.data.weather_main
      weather_description := r.data.weather_description
      timestamp_utc := t
      wind_speed_mps := r.data.wind_speed_mps
      latitude := r.data.latitude
      longitude := r.data.longitude
      load_timestamp_utc := lt }⟩

/-- `pd.to_datetime` over the whole column: any unparseable value raises,
so the conversion of a list of rows fails as a whole if any row fails. -/
def parse_all (to_datetime : String → Option Nat) : List StoredRow → Option (List WeatherRow)
  | [] => some []
  | r :: rs =>
    match parse_row to_datetime r with
    | none => none
    | some w => (parse_all to_datetime rs).map (fun ws => w :: ws)

/-- dashboard.py lines 87-96, `WeatherDashboard.load_data`: the SQL query
outcome is external (`query`), as is the timestamp parser.  Any failure —
query raised, or a timestamp failed to parse — is swallowed by the bare
`except:` and an empty frame is returned. -/
def load_data (query : Except LoadFailure (List StoredRow))
    (to_datetime : String → Option Nat) : List WeatherRow :=
  match query with
  | Except.error _ => []
  | Except.ok rows =>
    match parse_all to_datetime rows with
    | none => []
    | some parsed => parsed

/-- pipeline.py lines 12-22: `CITIES_DATA`, the fixed roster of
(name, OpenWeatherMap city id) pairs. -/
def CITIES_DATA : List (String × Nat) :=
  [("Mumbai", 1275339), ("Delhi", 1273294), ("Bengaluru", 1277333),
   ("Chennai", 1264527), ("Kolkata", 1275004), ("Hyderabad", 1269843),
   ("Jaipur", 1269515), ("Pune", 1259229), ("Ghaziabad", 1271308)]

/-- The pieces of the upstream JSON payload that the transform loop
accesses.  A `none` field models a payload in which that key (or the
corresponding nested key / list element) is missing, which makes the Python
subscription raise `KeyError`/`IndexError`. -/
structure Payload where
  name : Option String
  sys_country : Option String
  main_temp : Option Rat
  main_feels_like : Option Rat
  main_humidity : Option Nat
  weather0_main : Option String
  weather0_description : Option String
  dt : Option Nat
  wind_speed : Option Rat
  coord_lat : Option Rat
  coord_lon : Option Rat
deriving DecidableEq

/-- A payload has every field the transform loop subscripts. -/
def complete (p : Payload) : Bool :=
  p.name.isSome && p.sys_country.isSome && p.main_temp.isSome &&
  p.main_feels_like.isSome && p.main_humidity.isSome &&
  p.weather0_main.isSome && p.weather0_description.isSome &&
  p.dt.isSome && p.wind_speed.isSome && p.coord_lat.isSome &&
  p.coord_lon.isSome

/-- pipeline.py lines 43-54: the extraction loop.  `fetch` abstracts
`fetch_weather_data_by_id` (lines 27-40), which returns the decoded JSON on
success and `None` on any `requests` failure (transport error or non-2xx
status); only truthy payloads are collected into `all_weather_data`. -/
def all_weather_data (fetch : Nat → Option Payload) : List Payload :=
  CITIES_DATA.filterMap (fun c => fetch c.2)

/-- pipeline.py lines 62-75: one iteration of the transform loop, building
`transformed_entry` from payload `data`.  Each field access is a dict/list
subscription that raises when missing, hence the `Option` chain in source
order.  `now` is the value of `datetime.now(timezone.utc)` at this
iteration, truncated to seconds by `strftime`. -/
def transform_entry (now : Nat) (data : Payload) : Option WeatherRow :=
  data.name.bind fun name =>
  data.sys_country.bind fun country =>
  data.main_temp.bind fun temp =>
  data.main_feels_like.bind fun feels =>
  data.main_humidity.bind fun hum =>
  data.weather0_main.bind fun wmain =>
  data.weather0_description.bind fun wdesc =>
  data.dt.bind fun dtv =>
  data.wind_speed.bind fun wind =>
  data.coord_lat.bind fun lat =>
  data.coord_lon.bind fun lon =>
  some ⟨name,
    { country := country
      temperature_celsius := temp
      feels_like_celsius := feels
      humidity_percent := hum
      weather_main := wmain
      weather_description := wdesc
      timestamp_utc := dtv
      wind_speed_mps := wind
      latitude := lat
      longitude := lon
      load_timestamp_utc := now }⟩

/-- The transform loop from iteration `i` on.  `clock i` is the wall-clock
reading of the `datetime.now(timezone.utc)` call of iteration `i` (the
loop has no try/except: the first failing entry raises an uncaught
exception and the whole script dies, yielding `none`). -/
def transform_from (clock : Nat → Nat) : Nat → List Payload → Option (List WeatherRow)
  | _, [] => some []
  | i, p :: ps =>
    match transform_entry (clock i) p with
    | none => none
    | some r => (transform_from clock (i + 1) ps).map (fun rs => r :: rs)

/-- pipeline.py lines 59-76: `transformed_data`, the run's batch.  `none`
means the script crashed inside the loop (uncaught `KeyError`). -/
def transformed_data (clock : Nat → Nat) (payloads : List Payload) : Option (List WeatherRow) :=
  transform_from clock 0 payloads

/-- The durable sinks.  `csvExists` / `dbExists`: whether weather_data.csv
and weather_data.db exist on disk (`open(..., mode='a')` and
`sqlite3.connect` both create their file when absent). -/
structure SinkState where
  csvExists : Bool
  csvRows : List WeatherRow
  dbExists : Bool
  dbRows : List WeatherRow
deriving DecidableEq

/-- Observable outcome of one pipeline run: final sink state, whether each
sink append was attempted, and whether the script ran to its final line. -/
structure RunResult where
  state : SinkState
  csvAttempted : Bool
  dbAttempted : Bool
  completed : Bool
deriving DecidableEq

/-- pipeline.py lines 42-102 end to end.  EXTRACT collects the successful
payloads; TRANSFORM builds the batch (or the script dies); LOAD appends the
batch to the CSV and then, in an independent try/except, to the SQLite
table.  `csvOk` / `dbOk` are environment oracles: whether the respective
append succeeds; a failed append is caught, logged and does not stop the
script. -/
def run_pipeline (fetch : Nat → Option Payload) (clock : Nat → Nat)
    (csvOk dbOk : Bool) (st : SinkState) : RunResult :=
  match transformed_data clock (all_weather_data fetch) with
  | none => ⟨st, false, false, false⟩
  | some rows =>
    let st1 := if csvOk then
        { st with csvExists := true, csvRows := st.csvRows ++ rows } else st
    let st2 := if dbOk then
        { st1 with dbExists := true, dbRows := st1.dbRows ++ rows } else st1
    ⟨st2, true, true, true⟩

/-! ### Generic list lemmas -/

theorem indexOf_append_of_mem {α : Type _} [DecidableEq α] {a : α} :
    ∀ {l₁ : List α} (l₂ : List α), a ∈ l₁ → (l₁ ++ l₂).indexOf a = l₁.indexOf a := by
  intro l₁
  induction l₁ with
  | nil => intro l₂ h; exact absurd h (List.not_mem_nil a)
  | cons b t ih =>
    intro l₂ h
    by_cases hba : b = a
    · subst hba; simp [List.indexOf_cons_self]
    · have ht : a ∈ t := by
        rcases List.mem_cons.1 h with h1 | h1
        · exact absurd h1.symm hba
        · exact h1
      rw [List.cons_append, List.indexOf_cons_ne _ hba, List.indexOf_cons_ne _ hba, ih l₂ ht]

theorem indexOf_append_of_not_mem {α : Type _} [DecidableEq α] {a : α} :
    ∀ {l₁ : List α} (l₂ : List α), a ∉ l₁ →
      (l₁ ++ l₂).indexOf a = l₁.length + l₂.indexOf a := by
  intro l₁
  induction l₁ with
  | nil => intro l₂ _; simp
  | cons b t ih =>
    intro l₂ h
    have hba : b ≠ a := fun hba => h (hba ▸ List.mem_cons_self b t)
    have ht : a ∉ t := fun ht => h (List.mem_cons_of_mem b ht)
    rw [List.cons_append, List.indexOf_cons_ne _ hba, ih l₂ ht]
    simp [List.length_cons, Nat.succ_add]

theorem orderedInsert_append_not {α : Type _} (r : α → α → Prop) [DecidableRel r] (x : α) :
    ∀ (l₁ l₂ : List α), (∀ y ∈ l₁, ¬ r x y) →
      List.orderedInsert r x (l₁ ++ l₂) = l₁ ++ List.orderedInsert r x l₂ := by
  intro l₁
  induction l₁ with
  | nil => intro l₂ _; rfl
  | cons a t ih =>
    intro l₂ h
    rw [List.cons_append, List.orderedInsert, if_neg (h a (List.mem_cons_self a t)),
      ih l₂ (fun y hy => h y (List.mem_cons_of_mem a hy)), List.cons_append]

theorem orderedInsert_eq_cons_self {α : Type _} (r : α → α → Prop) [DecidableRel r] (x : α) :
    ∀ (l : List α), (∀ y ∈ l, r x y) → List.orderedInsert r x l = x :: l := by
  intro l h
  cases l with
  | nil => rfl
  | cons a t => rw [List.orderedInsert, if_pos (h a (List.mem_cons_self a t))]

theorem mem_of_getLast?_eq_some {α : Type _} {l : List α} {a : α}
    (h : l.getLast? = some a) : a ∈ l := by
  cases l with
  | nil => exact absurd h (by simp)
  | cons b t =>
    have hne : b :: t ≠ [] := by simp
    rw [List.getLast?_eq_getLast _ hne] at h
    injection h with h2
    exact h2 ▸ List.getLast_mem hne

theorem rel_getLast?_of_pairwise {α : Type _} {R : α → α → Prop} :
    ∀ {l : List α}, l.Pairwise R → ∀ {r : α}, l.getLast? = some r →
      ∀ x ∈ l, x = r ∨ R x r := by
  intro l
  induction l with
  | nil => intro _ r h; exact absurd h (by simp)
  | cons a t ih =>
    intro hpw r hr x hx
    cases t with
    | nil =>
      have hra : r = a := by simpa using hr.symm
      have hxa : x = a := by simpa using hx
      exact Or.inl (hxa.trans hra.symm)
    | cons b t' =>
      rw [List.getLast?_cons_cons] at hr
      have hpw' := (List.pairwise_cons.1 hpw)
      rcases List.mem_cons.1 hx with hxa | hxt
      · have hrm : r ∈ b :: t' := mem_of_getLast?_eq_some hr
        exact Or.inr (hxa ▸ hpw'.1 r hrm)
      · exact ih hpw'.2 hr x hxt

/-! ### The categorical sort -/

/-- The rows of the grouped frame carrying a roster city, in roster order:
`sort_values('city')` on the ordered categorical places them first, ordered
by categorical code, and the codes of distinct roster cities are distinct. -/
def rosterPart (rows : List DisplayRow) : List DisplayRow :=
  cities_order.filterMap (fun c => rows.find? (fun r => r.city == some c))

/-- The NaN-city rows (non-roster cities): `sort_values` places NaN rows
last, keeping their relative order. -/
def nanPart (rows : List DisplayRow) : List DisplayRow :=
  rows.filter (fun r => r.city == none)

theorem mem_filterMap_find? {cs : List String} {rows : List DisplayRow} {y : DisplayRow}
    (h : y ∈ cs.filterMap (fun c => rows.find? (fun r => r.city == some c))) :
    ∃ c ∈ cs, y.city = some c ∧ y ∈ rows := by
  obtain ⟨c, hc, hfind⟩ := List.mem_filterMap.1 h
  have hp := List.find?_some hfind
  have hm := List.mem_of_find?_eq_some hfind
  exact ⟨c, hc, by simpa using hp, hm⟩

theorem mem_rosterPart {rows : List DisplayRow} {y : DisplayRow} (h : y ∈ rosterPart rows) :
    ∃ c ∈ cities_order, y.city = some c ∧ y ∈ rows :=
  mem_filterMap_find? h

/-! ### Properties of the grouping pass -/

theorem mem_citiesPresent {df : List WeatherRow} {c : String} :
    c ∈ citiesPresent df ↔ ∃ r ∈ df, r.city = c := by
  unfold citiesPresent cityKeys
  rw [List.mem_insertionSort, List.mem_dedup, List.mem_map]
  constructor
  · rintro ⟨r, hr, rfl⟩
    exact ⟨r, (List.mem_insertionSort byLoad).1 hr, rfl⟩
  · rintro ⟨r, hr, rfl⟩
    exact ⟨r, (List.mem_insertionSort byLoad).2 hr, rfl⟩

theorem nodup_citiesPresent (df : List WeatherRow) : (citiesPresent df).Nodup :=
  (List.perm_insertionSort (· ≤ ·) _).symm.nodup (List.nodup_dedup _)

theorem sorted_citiesPresent (df : List WeatherRow) :
    List.Sorted (· ≤ ·) (citiesPresent df) :=
  List.sorted_insertionSort _ _

theorem citiesPresent_perm {df df' : List WeatherRow} (h : df.Perm df') :
    citiesPresent df = citiesPresent df' := by
  refine List.eq_of_perm_of_sorted ?_ (sorted_citiesPresent df) (sorted_citiesPresent df')
  unfold citiesPresent cityKeys
  refine (List.perm_insertionSort _ _).trans
    (List.Perm.trans ?_ (List.perm_insertionSort _ _).symm)
  exact (List.Perm.map _ (((List.perm_insertionSort byLoad df).trans h).trans
    (List.perm_insertionSort byLoad df').symm)).dedup

theorem pickLatest_mem {df : List WeatherRow} {c : String} {r : WeatherRow}
    (h : pickLatest df c = some r) : r.city = c ∧ r ∈ df := by
  have hm := mem_of_getLast?_eq_some h
  have hf := List.mem_filter.1 hm
  exact ⟨by simpa using hf.2, (List.mem_insertionSort byLoad).1 hf.1⟩

theorem pickLatest_spec {df : List WeatherRow} {c : String} (h : ∃ x ∈ df, x.city = c) :
    ∃ r, pickLatest df c = some r ∧ r.city = c ∧ r ∈ df ∧
      ∀ x ∈ df, x.city = c → x.data.load_timestamp_utc ≤ r.data.load_timestamp_utc := by
  obtain ⟨x0, hx0, hc0⟩ := h
  have hx0L : x0 ∈ (List.insertionSort byLoad df).filter (fun r => r.city == c) :=
    List.mem_filter.2 ⟨(List.mem_insertionSort byLoad).2 hx0, by simp [hc0]⟩
  have hLne : (List.insertionSort byLoad df).filter (fun r => r.city == c) ≠ [] := by
    intro hnil
    rw [hnil] at hx0L
    exact absurd hx0L (List.not_mem_nil x0)
  obtain ⟨r, hr⟩ : ∃ r, pickLatest df c = some r := by
    unfold pickLatest
    rw [List.getLast?_eq_getLast _ hLne]
    exact ⟨_, rfl⟩
  have hrprops := pickLatest_mem hr
  refine ⟨r, hr, hrprops.1, hrprops.2, ?_⟩
  intro x hx hxc
  have hxL : x ∈ (List.insertionSort byLoad df).filter (fun r => r.city == c) :=
    List.mem_filter.2 ⟨(List.mem_insertionSort byLoad).2 hx, by simp [hxc]⟩
  have hpair : ((List.insertionSort byLoad df).filter (fun r => r.city == c)).Pairwise byLoad :=
    (List.sorted_insertionSort byLoad df).filter _
  rcases rel_getLast?_of_pairwise hpair hr x hxL with h1 | h1
  · exact h1 ▸ Nat.le_refl _
  · exact h1

theorem mem_groupedData {df : List WeatherRow} {x : DisplayRow} :
    x ∈ groupedData df ↔
      ∃ c ∈ citiesPresent df, ∃ r, pickLatest df c = some r ∧ x = displayRow c r := by
  unfold groupedData
  rw [List.mem_filterMap]
  constructor
  · rintro ⟨c, hc, hx⟩
    rcases hp : pickLatest df c with _ | r
    · rw [hp] at hx; exact absurd hx (by simp)
    · rw [hp] at hx
      refine ⟨c, hc, r, hp, ?_⟩
      simpa using hx.symm
  · rintro ⟨c, hc, r, hp, rfl⟩
    exact ⟨c, hc, by simp [hp]⟩

theorem groupedData_city {df : List WeatherRow} {x : DisplayRow} (h : x ∈ groupedData df) :
    ∀ s : String, x.city = some s → s ∈ cities_order ∧ s ∈ citiesPresent df := by
  intro s hs
  obtain ⟨c, hc, r, _, rfl⟩ := mem_groupedData.1 h
  unfold displayRow at hs
  by_cases hro : c ∈ cities_order
  · rw [if_pos hro] at hs
    injection hs with hs
    exact ⟨hs ▸ hro, hs ▸ hc⟩
  · rw [if_neg hro] at hs
    exact absurd hs (by simp)

theorem filterMap_city_grouped (df : List WeatherRow) :
    ∀ ks : List String,
      ((ks.filterMap (fun c => (pickLatest df c).map (displayRow c))).filterMap
          (fun r => r.city))
        = ks.filter (fun c => decide (c ∈ cities_order) && (pickLatest df c).isSome) := by
  intro ks
  induction ks with
  | nil => rfl
  | cons c t ih =>
    rcases hp : pickLatest df c with _ | r
    · have h1 : (c :: t).filterMap (fun c => (pickLatest df c).map (displayRow c))
          = t.filterMap (fun c => (pickLatest df c).map (displayRow c)) :=
        List.filterMap_cons_none (by simp [hp])
      rw [h1, ih, List.filter_cons, if_neg (by simp [hp])]
    · have h1 : (c :: t).filterMap (fun c => (pickLatest df c).map (displayRow c))
          = displayRow c r :: t.filterMap (fun c => (pickLatest df c).map (displayRow c)) :=
        List.filterMap_cons_some (by simp [hp])
      by_cases hro : c ∈ cities_order
      · have h2 : (displayRow c r ::
              t.filterMap (fun c => (pickLatest df c).map (displayRow c))).filterMap
                (fun r => r.city)
            = c :: ((t.filterMap (fun c => (pickLatest df c).map (displayRow c))).filterMap
                (fun r => r.city)) :=
          List.filterMap_cons_some (by simp [displayRow, if_pos hro])
        rw [h1, h2, ih, List.filter_cons, if_pos (by simp [hro, hp])]
      · have h2 : (displayRow c r ::
              t.filterMap (fun c => (pickLatest df c).map (displayRow c))).filterMap
                (fun r => r.city)
            = (t.filterMap (fun c => (pickLatest df c).map (displayRow c))).filterMap
                (fun r => r.city) :=
          List.filterMap_cons_none (by simp [displayRow, if_neg hro])
        rw [h1, h2, ih, List.filter_cons, if_neg (by simp [hro])]

theorem filterMap_city_groupedData (df : List WeatherRow) :
    ((groupedData df).filterMap (fun r => r.city))
      = (citiesPresent df).filter (fun c => decide (c ∈ cities_order)) := by
  unfold groupedData
  rw [filterMap_city_grouped df (citiesPresent df)]
  refine List.filter_congr (fun c hc => ?_)
  obtain ⟨r, hr, -⟩ := pickLatest_spec (mem_citiesPresent.1 hc)
  simp [hr]

theorem nodup_groupedData_cities (df : List WeatherRow) :
    ((groupedData df).filterMap (fun r => r.city)).Nodup := by
  rw [filterMap_city_groupedData df]
  exact (nodup_citiesPresent df).filter _

theorem filterMap_length_of_isSome {α β : Type _} {f : α → Option β} :
    ∀ {l : List α}, (∀ a ∈ l, (f a).isSome = true) → (l.filterMap f).length = l.length := by
  intro l
  induction l with
  | nil => intro _; rfl
  | cons a t ih =>
    intro h
    obtain ⟨b, hb⟩ := Option.isSome_iff_exists.1 (h a (List.mem_cons_self a t))
    rw [List.filterMap_cons_some hb, List.length_cons, List.length_cons,
      ih (fun x hx => h x (List.mem_cons_of_mem a hx))]

theorem length_groupedData (df : List WeatherRow) :
    (groupedData df).length = (citiesPresent df).length := by
  unfold groupedData
  refine filterMap_length_of_isSome (fun c hc => ?_)
  obtain ⟨r, hr, -⟩ := pickLatest_spec (mem_citiesPresent.1 hc)
  simp [hr]

theorem cities_order_nodup : cities_order.Nodup := by decide

theorem insertionSort_byCity_split :
    ∀ (rows : List DisplayRow),
      (∀ r ∈ rows, ∀ s : String, r.city = some s → s ∈ cities_order) →
      (rows.filterMap (fun r => r.city)).Nodup →
      List.insertionSort byCity rows = rosterPart rows ++ nanPart rows := by
  intro rows
  induction rows with
  | nil =>
    intro _ _
    have h1 : rosterPart ([] : List DisplayRow) = [] := by
      unfold rosterPart
      exact List.filterMap_eq_nil_iff.2 (fun c _ => rfl)
    rw [h1]
    rfl
  | cons x rows ih =>
    intro h1 h2
    have h1' : ∀ r ∈ rows, ∀ s : String, r.city = some s → s ∈ cities_order :=
      fun r hr => h1 r (List.mem_cons_of_mem x hr)
    rcases hx : x.city with _ | s
    · -- NaN row: it is inserted at the head of the NaN block.
      have h2' : (rows.filterMap (fun r => r.city)).Nodup := by
        rw [List.filterMap_cons_none hx] at h2
        exact h2
      have hRP : rosterPart (x :: rows) = rosterPart rows := by
        unfold rosterPart
        exact List.filterMap_congr (fun c _ => List.find?_cons_of_neg _ (by simp [hx]))
      have hNP : nanPart (x :: rows) = x :: nanPart rows := by
        unfold nanPart
        rw [List.filter_cons, if_pos (by simp [hx])]
      show List.orderedInsert byCity x (List.insertionSort byCity rows) = _
      rw [ih h1' h2', hRP, hNP]
      rw [orderedInsert_append_not byCity x _ _ ?hA]
      case hA =>
        intro y hy
        obtain ⟨c, hc, hyc, -⟩ := mem_rosterPart hy
        show ¬ catCode x.city ≤ catCode y.city
        rw [hx, hyc]
        simp only [catCode]
        have := List.indexOf_lt_length.2 hc
        omega
      congr 1
      refine orderedInsert_eq_cons_self byCity x _ (fun y hy => ?_)
      have hyn : y.city = none := by
        have := List.mem_filter.1 hy
        simpa using this.2
      show catCode x.city ≤ catCode y.city
      rw [hx, hyn]
    · -- roster row: it is inserted at its roster position inside the
      -- roster block.
      have hs : s ∈ cities_order := h1 x (List.mem_cons_self x rows) s hx
      have hfm : (x :: rows).filterMap (fun r => r.city)
          = s :: rows.filterMap (fun r => r.city) := List.filterMap_cons_some hx
      rw [hfm] at h2
      have h2' := (List.nodup_cons.1 h2).2
      have hsnot : s ∉ rows.filterMap (fun r => r.city) := (List.nodup_cons.1 h2).1
      have hno : ∀ r ∈ rows, r.city ≠ some s := fun r hr hc =>
        hsnot (List.mem_filterMap.2 ⟨r, hr, hc⟩)
      obtain ⟨P, S, hPS⟩ := List.append_of_mem hs
      have hnodup := cities_order_nodup
      rw [hPS] at hnodup
      have hparts := List.nodup_append.1 hnodup
      have hsP : s ∉ P := fun hmem => (hparts.2.2 hmem) (List.mem_cons_self s S)
      have hsS : s ∉ S := (List.nodup_cons.1 hparts.2.1).1
      have hgs : rows.find? (fun r => r.city == some s) = none :=
        List.find?_eq_none.2 (fun r hr => by simpa using hno r hr)
      have hfind_cons_ne : ∀ c : String, c ≠ s →
          (x :: rows).find? (fun r => r.city == some c)
            = rows.find? (fun r => r.city == some c) := by
        intro c hcs
        refine List.find?_cons_of_neg _ ?_
        intro hbeq
        rw [hx] at hbeq
        have hesc : s = c := by simpa using hbeq
        exact hcs hesc.symm
      have hRProws : rosterPart rows
          = P.filterMap (fun c => rows.find? (fun r => r.city == some c)) ++
            S.filterMap (fun c => rows.find? (fun r => r.city == some c)) := by
        unfold rosterPart
        have hmid0 : (s :: S).filterMap (fun c => rows.find? (fun r => r.city == some c))
            = S.filterMap (fun c => rows.find? (fun r => r.city == some c)) :=
          List.filterMap_cons_none hgs
        rw [hPS, List.filterMap_append, hmid0]
      have hRPx : rosterPart (x :: rows)
          = P.filterMap (fun c => rows.find? (fun r => r.city == some c)) ++
            (x :: S.filterMap (fun c => rows.find? (fun r => r.city == some c))) := by
        unfold rosterPart
        rw [hPS, List.filterMap_append]
        have hmid : (s :: S).filterMap (fun c => (x :: rows).find? (fun r => r.city == some c))
            = x :: S.filterMap (fun c => (x :: rows).find? (fun r => r.city == some c)) :=
          List.filterMap_cons_some (List.find?_cons_of_pos _ (by simp [hx]))
        rw [hmid]
        congr 1
        · exact List.filterMap_congr (fun c hc => hfind_cons_ne c (fun h => hsP (h ▸ hc)))
        · congr 1
          exact List.filterMap_congr (fun c hc => hfind_cons_ne c (fun h => hsS (h ▸ hc)))
      have hNP : nanPart (x :: rows) = nanPart rows := by
        unfold nanPart
        rw [List.filter_cons, if_neg (by simp [hx])]
      have hidx : catCode (some s) = P.length := by
        simp only [catCode]
        rw [hPS, indexOf_append_of_not_mem _ hsP, List.indexOf_cons_self, Nat.add_zero]
      have hPlt : ∀ c ∈ P, catCode (some c) < catCode (some s) := by
        intro c hc
        have hidxc : catCode (some c) = P.indexOf c := by
          simp only [catCode]
          rw [hPS, indexOf_append_of_mem _ hc]
        rw [hidxc, hidx]
        exact List.indexOf_lt_length.2 hc
      have hSgt : ∀ c ∈ S, catCode (some s) < catCode (some c) := by
        intro c hc
        have hcP : c ∉ P := fun hcp => (hparts.2.2 hcp) (List.mem_cons_of_mem s hc)
        have hcs : s ≠ c := fun h => hsS (h ▸ hc)
        have hval : catCode (some c) = P.length + (S.indexOf c).succ := by
          simp only [catCode]
          rw [hPS, indexOf_append_of_not_mem _ hcP, List.indexOf_cons_ne _ hcs]
        rw [hidx, hval]
        omega
      have hlt9 : catCode (some s) < catCode none := by
        simp only [catCode]
        exact List.indexOf_lt_length.2 hs
      show List.orderedInsert byCity x (List.insertionSort byCity rows) = _
      rw [ih h1' h2', hRProws, hNP, hRPx, List.append_assoc]
      rw [orderedInsert_append_not byCity x _ _ ?hA2]
      case hA2 =>
        intro y hy
        obtain ⟨c, hc, hyc, -⟩ := mem_filterMap_find? hy
        show ¬ catCode x.city ≤ catCode y.city
        rw [hx, hyc]
        exact Nat.not_le.2 (hPlt c hc)
      rw [orderedInsert_eq_cons_self byCity x _ ?hB]
      case hB =>
        intro y hy
        show catCode x.city ≤ catCode y.city
        rw [hx]
        rcases List.mem_append.1 hy with hyS | hyN
        · obtain ⟨c, hc, hyc, -⟩ := mem_filterMap_find? hyS
          rw [hyc]
          exact Nat.le_of_lt (hSgt c hc)
        · have hyn : y.city = none := by
            have := List.mem_filter.1 hyN
            simpa using this.2
          rw [hyn]
          exact Nat.le_of_lt hlt9
      simp [List.append_assoc]

theorem get_latest_data_eq {df : List WeatherRow} (h : df ≠ []) :
    get_latest_data df = rosterPart (groupedData df) ++ nanPart (groupedData df) := by
  unfold get_latest_data
  rw [if_neg (by simpa [List.isEmpty_iff] using h)]
  exact insertionSort_byCity_split (groupedData df)
    (fun r hr s hs => (groupedData_city hr s hs).1)
    (nodup_groupedData_cities df)

theorem nanPart_filterMap (df : List WeatherRow) :
    ∀ ks : List String,
      nanPart (ks.filterMap (fun c => (pickLatest df c).map (displayRow c)))
        = (ks.filter (fun c => !decide (c ∈ cities_order))).filterMap
            (fun c => (pickLatest df c).map (fun r => (⟨none, r.data⟩ : DisplayRow))) := by
  intro ks
  induction ks with
  | nil => rfl
  | cons c t ih =>
    rcases hp : pickLatest df c with _ | r
    · have h1 : (c :: t).filterMap (fun c => (pickLatest df c).map (displayRow c))
          = t.filterMap (fun c => (pickLatest df c).map (displayRow c)) :=
        List.filterMap_cons_none (by simp [hp])
      by_cases hro : c ∈ cities_order
      · rw [h1, ih, List.filter_cons, if_neg (by simp [hro])]
      · rw [h1, ih, List.filter_cons, if_pos (by simp [hro])]
        have h2 : (c :: t.filter (fun c => !decide (c ∈ cities_order))).filterMap
              (fun c => (pickLatest df c).map (fun r => (⟨none, r.data⟩ : DisplayRow)))
            = (t.filter (fun c => !decide (c ∈ cities_order))).filterMap
              (fun c => (pickLatest df c).map (fun r => (⟨none, r.data⟩ : DisplayRow))) :=
          List.filterMap_cons_none (by simp [hp])
        rw [h2]
    · have h1 : (c :: t).filterMap (fun c => (pickLatest df c).map (displayRow c))
          = displayRow c r :: t.filterMap (fun c => (pickLatest df c).map (displayRow c)) :=
        List.filterMap_cons_some (by simp [hp])
      by_cases hro : c ∈ cities_order
      · have h2 : nanPart (displayRow c r ::
              t.filterMap (fun c => (pickLatest df c).map (displayRow c)))
            = nanPart (t.filterMap (fun c => (pickLatest df c).map (displayRow c))) := by
          unfold nanPart
          rw [List.filter_cons, if_neg (by simp [displayRow, if_pos hro])]
        rw [h1, h2, ih, List.filter_cons, if_neg (by simp [hro])]
      · have h2 : nanPart (displayRow c r ::
              t.filterMap (fun c => (pickLatest df c).map (displayRow c)))
            = displayRow c r ::
              nanPart (t.filterMap (fun c => (pickLatest df c).map (displayRow c))) := by
          unfold nanPart
          rw [List.filter_cons, if_pos (by simp [displayRow, if_neg hro])]
        have h3 : (c :: t.filter (fun c => !decide (c ∈ cities_order))).filterMap
              (fun c => (pickLatest df c).map (fun r => (⟨none, r.data⟩ : DisplayRow)))
            = (⟨none, r.data⟩ : DisplayRow) ::
              (t.filter (fun c => !decide (c ∈ cities_order))).filterMap
                (fun c => (pickLatest df c).map (fun r => (⟨none, r.data⟩ : DisplayRow))) :=
          List.filterMap_cons_some (by simp [hp])
        rw [h1, h2, ih, List.filter_cons, if_pos (by simp [hro]), h3]
        congr 1
        unfold displayRow
        rw [if_neg hro]

theorem nanPart_groupedData (df : List WeatherRow) :
    nanPart (groupedData df)
      = ((citiesPresent df).filter (fun c => !decide (c ∈ cities_order))).filterMap
          (fun c => (pickLatest df c).map (fun r => (⟨none, r.data⟩ : DisplayRow))) :=
  nanPart_filterMap df (citiesPresent df)

theorem length_nanPart_groupedData (df : List WeatherRow) :
    (nanPart (groupedData df)).length
      = ((citiesPresent df).filter (fun c => !decide (c ∈ cities_order))).length := by
  rw [nanPart_groupedData]
  refine filterMap_length_of_isSome (fun c hc => ?_)
  obtain ⟨r, hr, -⟩ := pickLatest_spec (mem_citiesPresent.1 ((List.mem_filter.1 hc).1))
  simp [hr]

theorem find?_groupedData_isSome {df : List WeatherRow} {c : String}
    (hc : c ∈ cities_order) :
    (((groupedData df).find? (fun r => r.city == some c)).isSome = true)
      ↔ c ∈ citiesPresent df := by
  rw [List.find?_isSome]
  constructor
  · rintro ⟨x, hx, hpx⟩
    have hcity : x.city = some c := by simpa using hpx
    exact (groupedData_city hx c hcity).2
  · intro hcp
    obtain ⟨r, hr, -, -, -⟩ := pickLatest_spec (mem_citiesPresent.1 hcp)
    refine ⟨displayRow c r, mem_groupedData.2 ⟨c, hcp, r, hr, rfl⟩, ?_⟩
    simp [displayRow, if_pos hc]

theorem map_city_filterMap_find? (rows : List DisplayRow) :
    ∀ cs : List String,
      ((cs.filterMap (fun c => rows.find? (fun r => r.city == some c))).map
          (fun r => r.city))
        = (cs.filter (fun c => (rows.find? (fun r => r.city == some c)).isSome)).map some := by
  intro cs
  induction cs with
  | nil => rfl
  | cons c t ih =>
    rcases hf : rows.find? (fun r => r.city == some c) with _ | y
    · have h1 : (c :: t).filterMap (fun c => rows.find? (fun r => r.city == some c))
          = t.filterMap (fun c => rows.find? (fun r => r.city == some c)) :=
        List.filterMap_cons_none hf
      rw [h1, ih, List.filter_cons, if_neg (by simp [hf])]
    · have h1 : (c :: t).filterMap (fun c => rows.find? (fun r => r.city == some c))
          = y :: t.filterMap (fun c => rows.find? (fun r => r.city == some c)) :=
        List.filterMap_cons_some hf
      have hyc : y.city = some c := by simpa using List.find?_some hf
      rw [h1, List.map_cons, hyc, ih, List.filter_cons, if_pos (by simp [hf]),
        List.map_cons]

theorem filterMap_city_filterMap_find? (rows : List DisplayRow) :
    ∀ cs : List String,
      ((cs.filterMap (fun c => rows.find? (fun r => r.city == some c))).filterMap
          (fun r => r.city))
        = cs.filter (fun c => (rows.find? (fun r => r.city == some c)).isSome) := by
  intro cs
  induction cs with
  | nil => rfl
  | cons c t ih =>
    rcases hf : rows.find? (fun r => r.city == some c) with _ | y
    · have h1 : (c :: t).filterMap (fun c => rows.find? (fun r => r.city == some c))
          = t.filterMap (fun c => rows.find? (fun r => r.city == some c)) :=
        List.filterMap_cons_none hf
      rw [h1, ih, List.filter_cons, if_neg (by simp [hf])]
    · have h1 : (c :: t).filterMap (fun c => rows.find? (fun r => r.city == some c))
          = y :: t.filterMap (fun c => rows.find? (fun r => r.city == some c)) :=
        List.filterMap_cons_some hf
      have hyc : y.city = some c := by simpa using List.find?_some hf
      have h2 : (y :: t.filterMap (fun c => rows.find? (fun r => r.city == some c))).filterMap
            (fun r => r.city)
          = c :: ((t.filterMap (fun c => rows.find? (fun r => r.city == some c))).filterMap
              (fun r => r.city)) :=
        List.filterMap_cons_some hyc
      rw [h1, h2, ih, List.filter_cons, if_pos (by simp [hf])]

theorem filterMap_city_rosterPart (rows : List DisplayRow) :
    ((rosterPart rows).filterMap (fun r => r.city))
      = cities_order.filter (fun c => (rows.find? (fun r => r.city == some c)).isSome) :=
  filterMap_city_filterMap_find? rows cities_order

theorem filterMap_city_nanPart (rows : List DisplayRow) :
    (nanPart rows).filterMap (fun r => r.city) = [] := by
  refine List.filterMap_eq_nil_iff.2 (fun y hy => ?_)
  have := List.mem_filter.1 hy
  simpa using this.2

theorem map_city_nanPart (rows : List DisplayRow) :
    (nanPart rows).map (fun r => r.city)
      = List.replicate (nanPart rows).length none := by
  rw [← List.length_map (nanPart rows) (fun r => r.city)]
  refine List.eq_replicate_of_mem (fun b hb => ?_)
  obtain ⟨y, hy, rfl⟩ := List.mem_map.1 hb
  have hm := List.mem_filter.1 hy
  simpa using hm.2

theorem filterMap_city_output (df : List WeatherRow) :
    (get_latest_data df).filterMap (fun r => r.city)
      = cities_order.filter (fun c => decide (∃ r ∈ df, r.city = c)) := by
  by_cases hdf : df = []
  · subst hdf
    have hleft : get_latest_data [] = [] := rfl
    rw [hleft]
    symm
    refine List.filter_eq_nil_iff.2 (fun c _ => ?_)
    simp
  · rw [get_latest_data_eq hdf, List.filterMap_append, filterMap_city_rosterPart,
      filterMap_city_nanPart, List.append_nil]
    refine List.filter_congr (fun c hc => ?_)
    by_cases h : c ∈ citiesPresent df
    · rw [(find?_groupedData_isSome hc).2 h, decide_eq_true (mem_citiesPresent.1 h)]
    · cases hb : ((groupedData df).find? (fun r => r.city == some c)).isSome with
      | true => exact absurd ((find?_groupedData_isSome hc).1 hb) h
      | false =>
        rw [decide_eq_false (fun hex => h (mem_citiesPresent.2 hex))]

theorem map_city_output {df : List WeatherRow} (h : df ≠ []) :
    (get_latest_data df).map (fun r => r.city)
      = ((cities_order.filter (fun c => decide (c ∈ citiesPresent df))).map some)
        ++ List.replicate
            (((citiesPresent df).filter (fun c => !decide (c ∈ cities_order))).length)
            none := by
  rw [get_latest_data_eq h, List.map_append, map_city_nanPart, length_nanPart_groupedData]
  congr 1
  have h1 := map_city_filterMap_find? (groupedData df) cities_order
  unfold rosterPart
  rw [h1]
  congr 1
  refine List.filter_congr (fun c hc => ?_)
  by_cases hm : c ∈ citiesPresent df
  · rw [(find?_groupedData_isSome hc).2 hm, decide_eq_true hm]
  · cases hb : ((groupedData df).find? (fun r => r.city == some c)).isSome with
    | true => exact absurd ((find?_groupedData_isSome hc).1 hb) hm
    | false => rw [decide_eq_false hm]

theorem countP_groupedData_le_one (df : List WeatherRow) (c : String) :
    (groupedData df).countP (fun r => r.city == some c) ≤ 1 := by
  have h1 : ((groupedData df).filterMap (fun r => r.city)).countP (fun s => s == c)
      = (groupedData df).countP (fun r => r.city == some c) := by
    rw [List.countP_filterMap]
    refine List.countP_congr (fun r _ => ?_)
    rcases hr : r.city with _ | s <;> simp [hr]
  rw [← h1, ← List.count_eq_countP]
  exact List.nodup_iff_count_le_one.1 (nodup_groupedData_cities df) c

theorem length_output {df : List WeatherRow} (h : df ≠ []) :
    (get_latest_data df).length = ((df.map (fun r => r.city)).dedup).length := by
  unfold get_latest_data
  rw [if_neg (by simpa [List.isEmpty_iff] using h), List.length_insertionSort,
    length_groupedData]
  unfold citiesPresent cityKeys
  rw [(List.perm_insertionSort _ _).length_eq]
  exact (((List.perm_insertionSort byLoad df).map (fun r => r.city)).dedup).length_eq

/-! ### Claims about the Snapshot Reader -/

/-- Concrete row payload used by the witnesses below. -/
def exData (load : Nat) : RowData Nat :=
  ⟨"IN", 0, 0, 0, "Clear", "clear sky", 0, 0, 0, 0, load⟩

/-- C1: for every non-empty store, `get_latest_data` returns one row per
distinct city (hence at most one row per city value present), and for every
roster city with at least one row the returned row carries the maximum
`load_timestamp_utc` among that city's rows. -/
theorem snapshot_latest_per_city (df : List WeatherRow) (h : df ≠ []) :
    (get_latest_data df).length = ((df.map (fun r => r.city)).dedup).length
    ∧ (∀ c : String,
        ((get_latest_data df).filter (fun r => r.city == some c)).length ≤ 1)
    ∧ ∀ c ∈ cities_order, (∃ x ∈ df, x.city = c) →
        ∃ r ∈ get_latest_data df, r.city = some c
          ∧ (∃ x ∈ df, x.city = c ∧ x.data.load_timestamp_utc = r.data.load_timestamp_utc)
          ∧ ∀ x ∈ df, x.city = c →
              x.data.load_timestamp_utc ≤ r.data.load_timestamp_utc := by
  refine ⟨length_output h, fun c => ?_, fun c hc hex => ?_⟩
  · rw [← List.countP_eq_length_filter]
    have hperm : (get_latest_data df).countP (fun r => r.city == some c)
        = (groupedData df).countP (fun r => r.city == some c) := by
      unfold get_latest_data
      rw [if_neg (by simpa [List.isEmpty_iff] using h)]
      exact (List.perm_insertionSort byCity _).countP_eq _
    rw [hperm]
    exact countP_groupedData_le_one df c
  · obtain ⟨rr, hpick, hcity, hmem, hmax⟩ := pickLatest_spec hex
    have hgm : displayRow c rr ∈ groupedData df :=
      mem_groupedData.2 ⟨c, mem_citiesPresent.2 hex, rr, hpick, rfl⟩
    have hout : displayRow c rr ∈ get_latest_data df := by
      unfold get_latest_data
      rw [if_neg (by simpa [List.isEmpty_iff] using h)]
      exact (List.mem_insertionSort byCity).2 hgm
    refine ⟨displayRow c rr, hout, ?_, ⟨rr, hmem, hcity, rfl⟩, fun x hx hxc => hmax x hx hxc⟩
    simp [displayRow, if_pos hc]

/-- C1 witness: the theorem applied to a concrete two-row store. -/
theorem snapshot_latest_per_city_at_concrete :
    ([⟨"Mumbai", exData 1⟩, ⟨"Mumbai", exData 2⟩] : List WeatherRow) ≠ []
    ∧ (get_latest_data [⟨"Mumbai", exData 1⟩, ⟨"Mumbai", exData 2⟩]).length
        = ((([⟨"Mumbai", exData 1⟩, ⟨"Mumbai", exData 2⟩] : List WeatherRow).map
            (fun r => r.city)).dedup).length :=
  ⟨by decide, (snapshot_latest_per_city _ (by decide)).1⟩

/-- C2: roster cities appear in the output in fixed roster order (the city
column restricted to non-null values is exactly the roster filtered to the
cities present), and permuting the input rows leaves the output city
ordering unchanged. -/
theorem snapshot_roster_order (df df' : List WeatherRow) (hperm : df.Perm df') :
    (get_latest_data df).filterMap (fun r => r.city)
        = cities_order.filter (fun c => decide (∃ r ∈ df, r.city = c))
    ∧ (get_latest_data df).map (fun r => r.city)
        = (get_latest_data df').map (fun r => r.city) := by
  refine ⟨filterMap_city_output df, ?_⟩
  by_cases hdf : df = []
  · subst hdf
    have h2 : df' = [] := hperm.symm.eq_nil
    subst h2
    rfl
  · have hdf' : df' ≠ [] := fun hnil => hdf ((hnil ▸ hperm).eq_nil)
    rw [map_city_output hdf, map_city_output hdf', citiesPresent_perm hperm]

/-- C2 witness: the theorem applied to a concrete store and a transposition
of it. -/
theorem snapshot_roster_order_at_concrete :
    (([⟨"Mumbai", exData 2⟩, ⟨"Mumbai", exData 1⟩] : List WeatherRow)).Perm
        [⟨"Mumbai", exData 1⟩, ⟨"Mumbai", exData 2⟩]
    ∧ (get_latest_data [⟨"Mumbai", exData 2⟩, ⟨"Mumbai", exData 1⟩]).map (fun r => r.city)
        = (get_latest_data [⟨"Mumbai", exData 1⟩, ⟨"Mumbai", exData 2⟩]).map
            (fun r => r.city) :=
  ⟨List.Perm.swap _ _ _,
   (snapshot_roster_order _ _ (List.Perm.swap _ _ _)).2⟩

/-- C3 counterexample: a store holding one row for the non-roster city
"Agra" yields an output in which no row carries the city value "Agra" —
the categorical conversion replaces non-roster city names by NaN, so the
name is not preserved as the claim states. -/
theorem snapshot_nonroster_cex :
    ¬ ∃ r ∈ get_latest_data [⟨"Agra", exData 9⟩], r.city = some "Agra" := by
  decide

/-- C3 as amended: the rows of non-roster cities are appended after the
ranked roster rows, ordered among themselves alphabetically by their city
name, with all non-key columns preserved — but their city value is replaced
by NaN (`none`), not preserved. -/
theorem snapshot_nonroster_appended (df : List WeatherRow) (h : df ≠ []) :
    (∀ r ∈ rosterPart (groupedData df), ∃ c ∈ cities_order, r.city = some c)
    ∧ List.Sorted (· ≤ ·)
        ((citiesPresent df).filter (fun c => !decide (c ∈ cities_order)))
    ∧ get_latest_data df
        = rosterPart (groupedData df)
          ++ ((citiesPresent df).filter (fun c => !decide (c ∈ cities_order))).filterMap
              (fun c => (pickLatest df c).map (fun r => (⟨none, r.data⟩ : DisplayRow))) := by
  refine ⟨fun r hr => ?_, (sorted_citiesPresent df).filter _, ?_⟩
  · obtain ⟨c, hc, hyc, -⟩ := mem_rosterPart hr
    exact ⟨c, hc, hyc⟩
  · rw [get_latest_data_eq h, nanPart_groupedData]

/-- C3 witness: the amended theorem applied to a concrete one-row store for
a non-roster city. -/
theorem snapshot_nonroster_appended_at_concrete :
    ([⟨"Agra", exData 9⟩] : List WeatherRow) ≠ []
    ∧ ((∀ r ∈ rosterPart (groupedData [⟨"Agra", exData 9⟩]),
          ∃ c ∈ cities_order, r.city = some c)
      ∧ List.Sorted (· ≤ ·)
          ((citiesPresent [⟨"Agra", exData 9⟩]).filter
            (fun c => !decide (c ∈ cities_order)))
      ∧ get_latest_data [⟨"Agra", exData 9⟩]
          = rosterPart (groupedData [⟨"Agra", exData 9⟩])
            ++ ((citiesPresent [⟨"Agra", exData 9⟩]).filter
                  (fun c => !decide (c ∈ cities_order))).filterMap
                (fun c => (pickLatest [⟨"Agra", exData 9⟩] c).map
                  (fun r => (⟨none, r.data⟩ : DisplayRow)))) :=
  ⟨by decide, snapshot_nonroster_appended _ (by decide)⟩

/-- C8: an empty store yields an empty snapshot (no exception), and the
dashboard header path renders the "no data" warning and stops instead of
failing. -/
theorem empty_store_snapshot :
    get_latest_data [] = [] ∧ display_header [] = ⟨true, false⟩ :=
  ⟨rfl, rfl⟩

/-! ### Properties of the transform loop -/

theorem transform_entry_isSome (now : Nat) (p : Payload) :
    (transform_entry now p).isSome = complete p := by
  rcases p with ⟨name, country, temp, feels, hum, wmain, wdesc, dtv, wind, lat, lon⟩
  rcases name with _ | name
  · simp [transform_entry, complete]
  rcases country with _ | country
  · simp [transform_entry, complete]
  rcases temp with _ | temp
  · simp [transform_entry, complete]
  rcases feels with _ | feels
  · simp [transform_entry, complete]
  rcases hum with _ | hum
  · simp [transform_entry, complete]
  rcases wmain with _ | wmain
  · simp [transform_entry, complete]
  rcases wdesc with _ | wdesc
  · simp [transform_entry, complete]
  rcases dtv with _ | dtv
  · simp [transform_entry, complete]
  rcases wind with _ | wind
  · simp [transform_entry, complete]
  rcases lat with _ | lat
  · simp [transform_entry, complete]
  rcases lon with _ | lon
  · simp [transform_entry, complete]
  simp [transform_entry, complete]

theorem transform_entry_of_complete (now : Nat) (p : Payload) (h : complete p = true) :
    ∃ w, transform_entry now p = some w ∧ p.name = some w.city
      ∧ w.data.load_timestamp_utc = now := by
  rcases p with ⟨name, country, temp, feels, hum, wmain, wdesc, dtv, wind, lat, lon⟩
  rcases name with _ | name
  · exact absurd h (by simp [complete])
  rcases country with _ | country
  · exact absurd h (by simp [complete])
  rcases temp with _ | temp
  · exact absurd h (by simp [complete])
  rcases feels with _ | feels
  · exact absurd h (by simp [complete])
  rcases hum with _ | hum
  · exact absurd h (by simp [complete])
  rcases wmain with _ | wmain
  · exact absurd h (by simp [complete])
  rcases wdesc with _ | wdesc
  · exact absurd h (by simp [complete])
  rcases dtv with _ | dtv
  · exact absurd h (by simp [complete])
  rcases wind with _ | wind
  · exact absurd h (by simp [complete])
  rcases lat with _ | lat
  · exact absurd h (by simp [complete])
  rcases lon with _ | lon
  · exact absurd h (by simp [complete])
  exact ⟨_, rfl, rfl, rfl⟩

theorem transform_entry_some {now : Nat} {p : Payload} {w : WeatherRow}
    (h : transform_entry now p = some w) :
    p.name = some w.city ∧ w.data.load_timestamp_utc = now := by
  have hc : complete p = true := by
    have h1 := transform_entry_isSome now p
    rw [h] at h1
    exact h1.symm.trans rfl |>.symm ▸ h1.symm
  obtain ⟨w', hw', hn, hl⟩ := transform_entry_of_complete now p hc
  rw [h] at hw'
  injection hw' with hww
  rw [← hww] at hn hl
  exact ⟨hn, hl⟩

theorem transform_from_all_complete (clock : Nat → Nat) :
    ∀ (ps : List Payload) (i : Nat), (∀ p ∈ ps, complete p = true) →
      ∃ rows, transform_from clock i ps = some rows
        ∧ rows.length = ps.length
        ∧ ∀ r ∈ rows, ∃ p ∈ ps, p.name = some r.city := by
  intro ps
  induction ps with
  | nil =>
    intro i _
    exact ⟨[], rfl, rfl, fun r hr => absurd hr (List.not_mem_nil r)⟩
  | cons p ps ih =>
    intro i hall
    obtain ⟨w, hw, hname, -⟩ :=
      transform_entry_of_complete (clock i) p (hall p (List.mem_cons_self p ps))
    obtain ⟨rows, hrows, hlen, hcities⟩ :=
      ih (i + 1) (fun q hq => hall q (List.mem_cons_of_mem p hq))
    refine ⟨w :: rows, ?_, ?_, ?_⟩
    · simp [transform_from, hw, hrows]
    · simp [hlen]
    · intro r hr
      rcases List.mem_cons.1 hr with rfl | hmem
      · exact ⟨p, List.mem_cons_self p ps, hname⟩
      · obtain ⟨q, hq, hqn⟩ := hcities r hmem
        exact ⟨q, List.mem_cons_of_mem p hq, hqn⟩

theorem transform_from_none (clock : Nat → Nat) :
    ∀ (ps : List Payload) (i : Nat) (p : Payload), p ∈ ps → complete p = false →
      transform_from clock i ps = none := by
  intro ps
  induction ps with
  | nil => intro i p hp _; exact absurd hp (List.not_mem_nil p)
  | cons q ps ih =>
    intro i p hp hbad
    rcases List.mem_cons.1 hp with rfl | hmem
    · cases he : transform_entry (clock i) p with
      | none => simp [transform_from, he]
      | some w =>
        have h1 := transform_entry_isSome (clock i) p
        rw [he, hbad] at h1
        exact absurd h1 (by simp)
    · cases hq : transform_entry (clock i) q with
      | none => simp [transform_from, hq]
      | some w => simp [transform_from, hq, ih (i + 1) p hmem hbad]

theorem transform_from_load (clock : Nat → Nat) :
    ∀ (ps : List Payload) (i : Nat) (rows : List WeatherRow),
      transform_from clock i ps = some rows →
      ∀ (k : Nat) (hk : k < rows.length),
        (rows.get ⟨k, hk⟩).data.load_timestamp_utc = clock (i + k) := by
  intro ps
  induction ps with
  | nil =>
    intro i rows h k hk
    have hnil : rows = [] := by
      have h2 : some ([] : List WeatherRow) = some rows := h
      injection h2 with h2
      exact h2.symm
    subst hnil
    exact absurd hk (by simp)
  | cons p ps ih =>
    intro i rows h k hk
    cases he : transform_entry (clock i) p with
    | none => rw [transform_from, he] at h; exact absurd h (by simp)
    | some w =>
      rw [transform_from, he] at h
      rcases hrs : transform_from clock (i + 1) ps with _ | rs
      · rw [hrs] at h; exact absurd h (by simp)
      · rw [hrs] at h
        have hrows : rows = w :: rs := by
          have h2 : some (w :: rs) = some rows := h
          injection h2 with h2
          exact h2.symm
        subst hrows
        cases k with
        | zero =>
          have := (transform_entry_some he).2
          simpa using this
        | succ k =>
          have hk' : k < rs.length := by simpa using hk
          have := ih (i + 1) rs hrs k hk'
          have harith : i + 1 + k = i + (k + 1) := by omega
          rw [harith] at this
          simpa using this

theorem parse_all_none (to_datetime : String → Option Nat) :
    ∀ (rows : List StoredRow) (r : StoredRow), r ∈ rows →
      parse_row to_datetime r = none → parse_all to_datetime rows = none := by
  intro rows
  induction rows with
  | nil => intro r hr _; exact absurd hr (List.not_mem_nil r)
  | cons q t ih =>
    intro r hr hnone
    rcases List.mem_cons.1 hr with rfl | hmem
    · simp [parse_all, hnone]
    · cases hq : parse_row to_datetime q with
      | none => simp [parse_all, hq]
      | some w => simp [parse_all, hq, ih r hmem hnone]

theorem filterMap_length_pointwise {α β : Type _} (f : α → Option β) (q : α → Bool) :
    ∀ l : List α, (∀ a ∈ l, (f a).isSome = q a) → (l.filterMap f).length = l.countP q := by
  intro l
  induction l with
  | nil => intro _; rfl
  | cons a t ih =>
    intro h
    have ha := h a (List.mem_cons_self a t)
    have ht := ih (fun x hx => h x (List.mem_cons_of_mem a hx))
    cases hfa : f a with
    | none =>
      rw [hfa] at ha
      rw [List.filterMap_cons_none hfa, ht, List.countP_cons, ← ha]
      simp
    | some b =>
      rw [hfa] at ha
      rw [List.filterMap_cons_some hfa, List.length_cons, ht, List.countP_cons, ← ha]
      simp

theorem countP_ne_of_nodup {α : Type _} [BEq α] [LawfulBEq α] :
    ∀ (l : List α) (a : α), l.Nodup → a ∈ l →
      l.countP (fun c => !(c == a)) = l.length - 1 := by
  intro l a
  induction l with
  | nil => intro _ h; exact absurd h (List.not_mem_nil a)
  | cons b t ih =>
    intro hnd hmem
    have hbt := List.nodup_cons.1 hnd
    rcases List.mem_cons.1 hmem with rfl | hat
    · rw [List.countP_cons]
      have hall : t.countP (fun c => !(c == a)) = t.length :=
        List.countP_eq_length.2 (fun c hc => by
          have : c ≠ a := fun h => hbt.1 (h ▸ hc)
          simp [this])
      simp [hall]
    · have hba : b ≠ a := fun h => hbt.1 (h ▸ hat)
      have hlen : 1 ≤ t.length :=
        List.length_pos.2 (List.ne_nil_of_mem hat)
      rw [List.countP_cons, ih hbt.2 hat]
      have hb : (!(b == a)) = true := by simp [hba]
      rw [hb]
      simp
      omega

/-! ### Claims about the ingestion pipeline -/

/-- A payload with every expected field present, as returned for a healthy
city fetch. -/
def basicPayload (n : String) : Payload :=
  ⟨some n, some "IN", some 0, some 0, some 0, some "Clear", some "clear sky",
   some 0, some 0, some 0, some 0⟩

/-- C4 counterexample: when the wall clock advances between loop
iterations, two rows of the same run receive different
`load_timestamp_utc` values — `datetime.now` is evaluated once per row
inside the loop, not once per run. -/
theorem load_timestamp_per_run_cex :
    ∃ rows, transformed_data (fun i => i) [basicPayload "Mumbai", basicPayload "Delhi"]
        = some rows
      ∧ ∃ r ∈ rows, ∃ q ∈ rows,
          r.data.load_timestamp_utc ≠ q.data.load_timestamp_utc := by
  decide

/-- C4 as amended: each row's `load_timestamp_utc` is the clock reading at
its own iteration of the transform loop (computed per row); consequently
all rows of a run share one value whenever the clock does not advance
during the loop — but only then. -/
theorem load_timestamp_per_row (clock : Nat → Nat) (ps : List Payload)
    (rows : List WeatherRow) (h : transformed_data clock ps = some rows) :
    (∀ (k : Nat) (hk : k < rows.length),
        (rows.get ⟨k, hk⟩).data.load_timestamp_utc = clock k)
    ∧ ((∀ i j : Nat, clock i = clock j) →
        ∀ r ∈ rows, ∀ q ∈ rows,
          r.data.load_timestamp_utc = q.data.load_timestamp_utc) := by
  have hidx := transform_from_load clock ps 0 rows h
  refine ⟨fun k hk => by simpa using hidx k hk, fun hconst r hr q hq => ?_⟩
  obtain ⟨⟨n, hn⟩, rfl⟩ := List.mem_iff_get.1 hr
  obtain ⟨⟨m, hm⟩, rfl⟩ := List.mem_iff_get.1 hq
  have h1 := hidx n hn
  have h2 := hidx m hm
  rw [h1, h2]
  exact hconst (0 + n) (0 + m)

/-- C4 witness: the amended theorem applied to a concrete run whose clock
does not tick. -/
theorem load_timestamp_per_row_at_concrete :
    transformed_data (fun _ => 5) [basicPayload "Mumbai", basicPayload "Delhi"]
        = some [⟨"Mumbai", ⟨"IN", 0, 0, 0, "Clear", "clear sky", 0, 0, 0, 0, 5⟩⟩,
                ⟨"Delhi", ⟨"IN", 0, 0, 0, "Clear", "clear sky", 0, 0, 0, 0, 5⟩⟩]
    ∧ ((∀ (k : Nat) (hk : k < ([⟨"Mumbai", ⟨"IN", 0, 0, 0, "Clear", "clear sky", 0, 0, 0, 0, 5⟩⟩,
                ⟨"Delhi", ⟨"IN", 0, 0, 0, "Clear", "clear sky", 0, 0, 0, 0, 5⟩⟩] :
                  List WeatherRow).length),
          (([⟨"Mumbai", ⟨"IN", 0, 0, 0, "Clear", "clear sky", 0, 0, 0, 0, 5⟩⟩,
                ⟨"Delhi", ⟨"IN", 0, 0, 0, "Clear", "clear sky", 0, 0, 0, 0, 5⟩⟩] :
                  List WeatherRow).get ⟨k, hk⟩).data.load_timestamp_utc = 5)
      ∧ ((∀ i j : Nat, (5 : Nat) = 5) →
          ∀ r ∈ ([⟨"Mumbai", ⟨"IN", 0, 0, 0, "Clear", "clear sky", 0, 0, 0, 0, 5⟩⟩,
                ⟨"Delhi", ⟨"IN", 0, 0, 0, "Clear", "clear sky", 0, 0, 0, 0, 5⟩⟩] :
                  List WeatherRow),
          ∀ q ∈ ([⟨"Mumbai", ⟨"IN", 0, 0, 0, "Clear", "clear sky", 0, 0, 0, 0, 5⟩⟩,
                ⟨"Delhi", ⟨"IN", 0, 0, 0, "Clear", "clear sky", 0, 0, 0, 0, 5⟩⟩] :
                  List WeatherRow),
            r.data.load_timestamp_utc = q.data.load_timestamp_utc)) :=
  ⟨rfl, load_timestamp_per_row (fun _ => 5) [basicPayload "Mumbai", basicPayload "Delhi"]
    [⟨"Mumbai", ⟨"IN", 0, 0, 0, "Clear", "clear sky", 0, 0, 0, 0, 5⟩⟩,
     ⟨"Delhi", ⟨"IN", 0, 0, 0, "Clear", "clear sky", 0, 0, 0, 0, 5⟩⟩] rfl⟩

/-- The fetch oracle of the C5 counterexample: Mumbai's payload decodes but
lacks the `sys` object, Delhi's payload is healthy, every other city fails
at fetch time. -/
def malformedFetch : Nat → Option Payload := fun id =>
  if id = 1275339 then some { basicPayload "Mumbai" with sys_country := none }
  else if id = 1273294 then some (basicPayload "Delhi") else none

/-- C5 counterexample: a payload missing the `sys` field does not merely
cost that city its row — the transform loop raises an uncaught `KeyError`,
the run dies before LOAD, and the healthy city ("Delhi") is not appended
either. -/
theorem malformed_payload_cex :
    transformed_data (fun i => i) (all_weather_data malformedFetch) = none
    ∧ (run_pipeline malformedFetch (fun i => i) true true ⟨false, [], false, []⟩).completed
        = false
    ∧ (run_pipeline malformedFetch (fun i => i) true true
        ⟨false, [], false, []⟩).state.dbRows = []
    ∧ (run_pipeline malformedFetch (fun i => i) true true
        ⟨false, [], false, []⟩).state.csvRows = [] := by
  decide

/-- C5 as amended: a fetched payload missing an expected field is not
contained to its city: the transform loop dies on it, the whole run fails,
and no rows at all are appended for any city in that run. -/
theorem malformed_payload_aborts_run (fetch : Nat → Option Payload) (clock : Nat → Nat)
    (csvOk dbOk : Bool) (st : SinkState) (p : Payload)
    (hp : p ∈ all_weather_data fetch) (hbad : complete p = false) :
    transformed_data clock (all_weather_data fetch) = none
    ∧ run_pipeline fetch clock csvOk dbOk st = ⟨st, false, false, false⟩ := by
  have h1 : transformed_data clock (all_weather_data fetch) = none :=
    transform_from_none clock _ 0 p hp hbad
  exact ⟨h1, by simp [run_pipeline, h1]⟩

/-- C5 witness: the amended theorem applied to the concrete malformed
fetch. -/
theorem malformed_payload_aborts_run_at_concrete :
    ({ basicPayload "Mumbai" with sys_country := none } ∈ all_weather_data malformedFetch)
    ∧ complete { basicPayload "Mumbai" with sys_country := none } = false
    ∧ (transformed_data (fun i => i) (all_weather_data malformedFetch) = none
      ∧ run_pipeline malformedFetch (fun i => i) false true ⟨false, [], false, []⟩
          = ⟨⟨false, [], false, []⟩, false, false, false⟩) :=
  ⟨by decide, by decide,
   malformed_payload_aborts_run malformedFetch (fun i => i) false true
     ⟨false, [], false, []⟩ { basicPayload "Mumbai" with sys_country := none }
     (by decide) (by decide)⟩

/-- Whether `fetch` behaves like a healthy fetch for roster entry `c`: it
returns a payload with every expected field whose `name` is the city's
name. -/
def goodFetch (fetch : Nat → Option Payload) (c : String × Nat) : Bool :=
  match fetch c.2 with
  | none => false
  | some p => complete p && (p.name == some c.1)

/-- C6: if exactly one roster city's fetch fails and the other eight fetch
healthy payloads, the run survives, its batch holds exactly 8 rows, none of
them for the failed city, and both sinks receive exactly that batch. -/
theorem single_fetch_failure (fetch : Nat → Option Payload) (clock : Nat → Nat)
    (st : SinkState) (cf : String × Nat)
    (hmem : cf ∈ CITIES_DATA)
    (hfail : fetch cf.2 = none)
    (hgood : ∀ c ∈ CITIES_DATA, c ≠ cf → goodFetch fetch c = true) :
    ∃ rows, transformed_data clock (all_weather_data fetch) = some rows
      ∧ rows.length = 8
      ∧ (∀ r ∈ rows, r.city ≠ cf.1)
      ∧ (run_pipeline fetch clock true true st).completed = true
      ∧ (run_pipeline fetch clock true true st).state.csvRows = st.csvRows ++ rows
      ∧ (run_pipeline fetch clock true true st).state.dbRows = st.dbRows ++ rows := by
  have hids : ∀ c ∈ CITIES_DATA, c ≠ cf →
      ∃ p, fetch c.2 = some p ∧ complete p = true ∧ p.name = some c.1 := by
    intro c hc hne
    have hg := hgood c hc hne
    cases hf : fetch c.2 with
    | none => rw [goodFetch, hf] at hg; exact absurd hg (by simp)
    | some p =>
      rw [goodFetch, hf] at hg
      simp only [Bool.and_eq_true] at hg
      exact ⟨p, rfl, hg.1, by simpa using hg.2⟩
  have hcomp : ∀ p ∈ all_weather_data fetch,
      complete p = true ∧ ∃ c ∈ CITIES_DATA, c ≠ cf ∧ p.name = some c.1 := by
    intro p hp
    obtain ⟨c, hc, hf⟩ := List.mem_filterMap.1 hp
    have hne : c ≠ cf := by
      rintro rfl
      rw [hfail] at hf
      exact absurd hf (by simp)
    obtain ⟨q, hq, hqc, hqn⟩ := hids c hc hne
    rw [hq] at hf
    injection hf with hf
    rw [← hf]
    exact ⟨hqc, c, hc, hne, hqn⟩
  have hlen : (all_weather_data fetch).length = 8 := by
    unfold all_weather_data
    rw [filterMap_length_pointwise _ (fun c => !(c == cf)) CITIES_DATA ?hpt]
    case hpt =>
      intro c hc
      by_cases hne : c = cf
      · subst hne
        rw [hfail]
        simp
      · obtain ⟨p, hp, -, -⟩ := hids c hc hne
        rw [hp]
        simp [hne]
    rw [countP_ne_of_nodup CITIES_DATA cf (by decide) hmem]
    rfl
  obtain ⟨rows, hrows, hrlen, hcities⟩ :=
    transform_from_all_complete clock (all_weather_data fetch) 0
      (fun p hp => (hcomp p hp).1)
  have hrows' : transformed_data clock (all_weather_data fetch) = some rows := hrows
  have hnotcf : ∀ r ∈ rows, r.city ≠ cf.1 := by
    intro r hr heq
    obtain ⟨p, hp, hpn⟩ := hcities r hr
    obtain ⟨-, c, hc, hne, hcn⟩ := hcomp p hp
    rw [hpn] at hcn
    injection hcn with hcn
    have hnames : (CITIES_DATA.map (fun c => c.1)).Nodup := by decide
    exact hne (List.inj_on_of_nodup_map hnames hc hmem (by rw [← hcn, heq]))
  have hrun : run_pipeline fetch clock true true st
      = ⟨⟨true, st.csvRows ++ rows, true, st.dbRows ++ rows⟩, true, true, true⟩ := by
    simp [run_pipeline, hrows']
  exact ⟨rows, hrows', by rw [hrlen, hlen], hnotcf, by rw [hrun], by rw [hrun],
    by rw [hrun]⟩

/-- The fetch oracle of the C6 witness: Pune's request fails, every other
roster city returns a healthy payload carrying its own name. -/
def puneFetch : Nat → Option Payload := fun id =>
  if id = 1259229 then none
  else
    match CITIES_DATA.find? (fun c => c.2 == id) with
    | some c => some (basicPayload c.1)
    | none => none

/-- C6 witness: the theorem applied to the concrete Pune-failure oracle. -/
theorem single_fetch_failure_at_concrete :
    (("Pune", 1259229) ∈ CITIES_DATA
      ∧ puneFetch ("Pune", 1259229).2 = none
      ∧ ∀ c ∈ CITIES_DATA, c ≠ ("Pune", 1259229) → goodFetch puneFetch c = true)
    ∧ ∃ rows, transformed_data (fun i => i) (all_weather_data puneFetch) = some rows
        ∧ rows.length = 8
        ∧ (∀ r ∈ rows, r.city ≠ ("Pune", 1259229).1)
        ∧ (run_pipeline puneFetch (fun i => i) true true
            ⟨false, [], false, []⟩).completed = true
        ∧ (run_pipeline puneFetch (fun i => i) true true
            ⟨false, [], false, []⟩).state.csvRows
              = (⟨false, [], false, []⟩ : SinkState).csvRows ++ rows
        ∧ (run_pipeline puneFetch (fun i => i) true true
            ⟨false, [], false, []⟩).state.dbRows
              = (⟨false, [], false, []⟩ : SinkState).dbRows ++ rows :=
  ⟨⟨by decide, by decide, by decide⟩,
   single_fetch_failure puneFetch (fun i => i) ⟨false, [], false, []⟩
     ("Pune", 1259229) (by decide) (by decide) (by decide)⟩

/-- C7: whenever the run reaches LOAD, both sink appends are attempted and
the script completes regardless of either sink failing, and each sink's
final contents are independent of whether the other sink's append
succeeded. -/
theorem sink_failures_independent (fetch : Nat → Option Payload) (clock : Nat → Nat)
    (st : SinkState) (csvOk dbOk : Bool) (rows : List WeatherRow)
    (h : transformed_data clock (all_weather_data fetch) = some rows) :
    (run_pipeline fetch clock csvOk dbOk st).csvAttempted = true
    ∧ (run_pipeline fetch clock csvOk dbOk st).dbAttempted = true
    ∧ (run_pipeline fetch clock csvOk dbOk st).completed = true
    ∧ (run_pipeline fetch clock false dbOk st).state.dbRows
        = (run_pipeline fetch clock true dbOk st).state.dbRows
    ∧ (run_pipeline fetch clock csvOk false st).state.csvRows
        = (run_pipeline fetch clock csvOk true st).state.csvRows := by
  refine ⟨?_, ?_, ?_, ?_, ?_⟩ <;> cases csvOk <;> cases dbOk <;>
    simp [run_pipeline, h]

/-- C7 witness: the theorem applied to a concrete run (no successful
fetches, so the batch is empty but LOAD is still reached). -/
theorem sink_failures_independent_at_concrete :
    transformed_data (fun i => i) (all_weather_data (fun _ => none)) = some []
    ∧ ((run_pipeline (fun _ => none) (fun i => i) false false
          ⟨false, [], false, []⟩).csvAttempted = true
      ∧ (run_pipeline (fun _ => none) (fun i => i) false false
          ⟨false, [], false, []⟩).dbAttempted = true
      ∧ (run_pipeline (fun _ => none) (fun i => i) false false
          ⟨false, [], false, []⟩).completed = true
      ∧ (run_pipeline (fun _ => none) (fun i => i) false false
          ⟨false, [], false, []⟩).state.dbRows
          = (run_pipeline (fun _ => none) (fun i => i) true false
              ⟨false, [], false, []⟩).state.dbRows
      ∧ (run_pipeline (fun _ => none) (fun i => i) false false
          ⟨false, [], false, []⟩).state.csvRows
          = (run_pipeline (fun _ => none) (fun i => i) false true
              ⟨false, [], false, []⟩).state.csvRows) :=
  ⟨rfl, sink_failures_independent (fun _ => none) (fun i => i)
    ⟨false, [], false, []⟩ false false [] rfl⟩

/-- C9: a run in which every fetch fails appends zero rows to both sinks
and still completes; its sink-creation behavior is the fixed one of the
code — both sink files come to exist (append-mode `open` creates the CSV,
`sqlite3.connect` creates the database file), i.e. absent sinks are created
empty. -/
theorem zero_fetch_run (fetch : Nat → Option Payload) (clock : Nat → Nat)
    (csvOk dbOk : Bool) (st : SinkState)
    (h : ∀ c ∈ CITIES_DATA, fetch c.2 = none) :
    all_weather_data fetch = []
    ∧ transformed_data clock (all_weather_data fetch) = some []
    ∧ (run_pipeline fetch clock csvOk dbOk st).state.csvRows = st.csvRows
    ∧ (run_pipeline fetch clock csvOk dbOk st).state.dbRows = st.dbRows
    ∧ (run_pipeline fetch clock csvOk dbOk st).completed = true
    ∧ (csvOk = true → (run_pipeline fetch clock csvOk dbOk st).state.csvExists = true)
    ∧ (dbOk = true → (run_pipeline fetch clock csvOk dbOk st).state.dbExists = true) := by
  have h0 : all_weather_data fetch = [] := List.filterMap_eq_nil_iff.2 h
  have h1 : transformed_data clock (all_weather_data fetch) = some [] := by
    rw [h0]
    rfl
  refine ⟨h0, h1, ?_, ?_, ?_, ?_, ?_⟩ <;> cases csvOk <;> cases dbOk <;>
    simp [run_pipeline, h1]

/-- C9 witness: the theorem applied to the all-failing oracle on initially
absent sinks. -/
theorem zero_fetch_run_at_concrete :
    (∀ c ∈ CITIES_DATA, (fun _ : Nat => (none : Option Payload)) c.2 = none)
    ∧ (all_weather_data (fun _ => none) = []
      ∧ transformed_data (fun i => i) (all_weather_data (fun _ => none)) = some []
      ∧ (run_pipeline (fun _ => none) (fun i => i) true true
          ⟨false, [], false, []⟩).state.csvRows
            = (⟨false, [], false, []⟩ : SinkState).csvRows
      ∧ (run_pipeline (fun _ => none) (fun i => i) true true
          ⟨false, [], false, []⟩).state.dbRows
            = (⟨false, [], false, []⟩ : SinkState).dbRows
      ∧ (run_pipeline (fun _ => none) (fun i => i) true true
          ⟨false, [], false, []⟩).completed = true
      ∧ (true = true → (run_pipeline (fun _ => none) (fun i => i) true true
          ⟨false, [], false, []⟩).state.csvExists = true)
      ∧ (true = true → (run_pipeline (fun _ => none) (fun i => i) true true
          ⟨false, [], false, []⟩).state.dbExists = true)) :=
  ⟨fun c _ => rfl,
   zero_fetch_run (fun _ => none) (fun i => i) true true ⟨false, [], false, []⟩
     (fun c _ => rfl)⟩

/-! ### Claim about the dashboard data load -/

/-- Stored row with unparseable timestamp text, used by the C10 witness. -/
def exStored : StoredRow :=
  ⟨"Mumbai", ⟨"IN", 0, 0, 0, "Clear", "clear sky", "not a date", 0, 0, 0, "not a date"⟩⟩

/-- C10: `load_data` never propagates a failure: a failed query (missing
database file, missing table, or anything else) and a timestamp-parse
failure both yield an empty frame, which is also exactly what an empty
table yields — the caller cannot tell an empty store from an unreadable
one. -/
theorem load_data_swallows (to_datetime : String → Option Nat) (e : LoadFailure)
    (rows : List StoredRow) (h : ∃ r ∈ rows, parse_row to_datetime r = none) :
    load_data (Except.error e) to_datetime = []
    ∧ load_data (Except.ok rows) to_datetime = []
    ∧ load_data (Except.error e) to_datetime
        = load_data (Except.ok ([] : List StoredRow)) to_datetime := by
  obtain ⟨r, hr, hnone⟩ := h
  have hpar : parse_all to_datetime rows = none := parse_all_none to_datetime rows r hr hnone
  exact ⟨rfl, by simp [load_data, hpar], rfl⟩

/-- C10 witness: the theorem applied to a concrete one-row table whose
timestamps do not parse. -/
theorem load_data_swallows_at_concrete :
    (∃ r ∈ [exStored], parse_row (fun _ => none) r = none)
    ∧ (load_data (Except.error LoadFailure.missingDatabase) (fun _ => none) = []
      ∧ load_data (Except.ok [exStored]) (fun _ => none) = []
      ∧ load_data (Except.error LoadFailure.missingDatabase) (fun _ => none)
          = load_data (Except.ok ([] : List StoredRow)) (fun _ => none)) :=
  ⟨⟨exStored, List.mem_cons_self exStored [], rfl⟩,
   load_data_swallows (fun _ => none) LoadFailure.missingDatabase [exStored]
     ⟨exStored, List.mem_cons_self exStored [], rfl⟩⟩
